import Mathlib

/-!
# Verification of the DayZ `types.xml` generator's record model and collection operations

Shallow embedding of `src/types_generator.py`:

* `TypeEntry` with `TypeEntry.from_xml` / `TypeEntry.to_xml` (lines 164-261),
  over a small model `Elem` of `xml.etree.ElementTree.Element`;
* collection-level operations `MainWindow.duplicate_type`,
  `MainWindow.save_selected_changes`, `MainWindow.action_import`
  (lines 632-729), modelled as pure functions on the window's relevant state
  (`self.entries`, `self.category_pool`).

Python's built-in `str`/`int` conversions and `str.strip` are modelled by
`pyStr`, `pyInt`, `pyStrip` below.
-/

/-! ## Model of Python's decimal `str`/`int` conversions -/

/-- Decimal digits of `n`, most significant first, with `fuel` bounding the
recursion depth (any `fuel > n` is enough). Digits come from core's
`Nat.digitChar` (which agrees with Python for values below 10). -/
def natDigitsAux (fuel : Nat) (n : Nat) : List Char :=
  match fuel with
  | 0 => []
  | fuel + 1 =>
    if n < 10 then [Nat.digitChar n]
    else natDigitsAux fuel (n / 10) ++ [Nat.digitChar (n % 10)]

/-- Decimal digits of `n`, most significant first. -/
def natDigits (n : Nat) : List Char := natDigitsAux (n + 1) n

/-- Model of Python `str` applied to an `int`: canonical decimal rendering,
with a leading `-` for negative values. -/
def intDecimal (v : Int) : List Char :=
  if v < 0 then '-' :: natDigits v.natAbs else natDigits v.toNat

/-- `str(v)` for an `int` `v`, as a `String`. -/
def pyStr (v : Int) : String := String.mk (intDecimal v)

/-- Model of Python `str.strip()` (and of the whitespace-stripping that
`int(...)` itself performs): remove whitespace from both ends.
Python strips a slightly larger Unicode whitespace class than
`Char.isWhitespace`; the difference is irrelevant here since every character
produced by `pyStr` is a digit or `-`, whitespace in neither sense. -/
def pyStrip (l : List Char) : List Char :=
  ((l.dropWhile Char.isWhitespace).reverse.dropWhile Char.isWhitespace).reverse

/-- Digit run parser used by `pyInt`: all characters must be decimal digits
and there must be at least one. -/
def parseDigits (ds : List Char) : Option Nat :=
  if ds = [] then none
  else if ds.all Char.isDigit then
    some (ds.foldl (fun a c => a * 10 + (c.toNat - 48)) 0)
  else none

/-- Model of Python `int(s)` on a string: strip whitespace, allow one leading
sign, then a non-empty run of decimal digits; `none` models `ValueError`.
(CPython additionally accepts `_` digit-group separators; no input considered
in this development contains one.) -/
def pyInt (l : List Char) : Option Int :=
  match pyStrip l with
  | [] => none
  | c :: cs =>
    if c = '-' then Option.map (fun n : Nat => -(n : Int)) (parseDigits cs)
    else if c = '+' then Option.map (fun n : Nat => (n : Int)) (parseDigits cs)
    else Option.map (fun n : Nat => (n : Int)) (parseDigits (c :: cs))

/-! ## Model of `xml.etree.ElementTree.Element` (as used by the program) -/

/-- An XML element: tag, attribute list (keys unique as produced by
`Element.set`), child elements in document order, and optional text. -/
inductive Elem : Type where
  | mk : String → List (String × String) → List Elem → Option String → Elem

def Elem.tag : Elem → String
  | .mk t _ _ _ => t

def Elem.attrs : Elem → List (String × String)
  | .mk _ a _ _ => a

def Elem.children : Elem → List Elem
  | .mk _ _ c _ => c

def Elem.text : Elem → Option String
  | .mk _ _ _ tx => tx

/-- First value bound to `key`, if any: `Element.get(key)`. -/
def getAttr : List (String × String) → String → Option String
  | [], _ => none
  | (k, v) :: rest, key => if k = key then some v else getAttr rest key

def Elem.get (e : Elem) (key : String) : Option String := getAttr e.attrs key

/-- First direct child with the given tag: `Element.find(tag)`. -/
def findChild : List Elem → String → Option Elem
  | [], _ => none
  | c :: cs, t => if c.tag = t then some c else findChild cs t

def Elem.find (e : Elem) (t : String) : Option Elem := findChild e.children t

/-- All direct children with the given tag, in document order:
`Element.findall(tag)`. -/
def Elem.findall (e : Elem) (t : String) : List Elem :=
  e.children.filter (fun c => c.tag == t)

/-! ## The record model: `TypeEntry` (types_generator.py lines 164-261) -/

/-- The `flags` mapping. In the source it is a `Dict[str, int]` created with
exactly these six keys, in this insertion order, and no other key is ever
added; it is embedded as a fixed six-field record of integers. -/
@[ext]
structure Flags where
  count_in_cargo : Int
  count_in_hoarder : Int
  count_in_map : Int
  count_in_player : Int
  crafted : Int
  deloot : Int
deriving DecidableEq, Repr

/-- Default flags from the dataclass `default_factory`. -/
def defaultFlags : Flags :=
  { count_in_cargo := 0, count_in_hoarder := 0, count_in_map := 1,
    count_in_player := 0, crafted := 0, deloot := 0 }

/-- The `TypeEntry` dataclass. -/
@[ext]
structure TypeEntry where
  name : String
  nominal : Option Int := none
  lifetime : Option Int := none
  restock : Option Int := none
  min : Option Int := none
  quantmin : Option Int := none
  quantmax : Option Int := none
  cost : Option Int := none
  flags : Flags := defaultFlags
  category : Option String := none
  usages : List String := []
  values : List String := []
  tags : List String := []
deriving DecidableEq, Repr

/-- `get_int` inside `TypeEntry.from_xml` (lines 191-198): look up the child
with the given tag; if its text strips to something non-empty, parse it as an
integer, with `ValueError` mapped to `None`; otherwise `None`. -/
def get_int (elem : Elem) (tag : String) : Option Int :=
  match elem.find tag with
  | some t =>
    if pyStrip (t.text.getD "").data ≠ [] then pyInt (t.text.getD "").data
    else none
  | none => none

/-- One flag attribute read in `from_xml` (lines 210-218): if the `flags`
element carries the key, overwrite the default with `int(v)`, keeping the
default on `ValueError`. -/
def flagVal (fe : Elem) (k : String) (dflt : Int) : Int :=
  match fe.get k with
  | some v =>
    match pyInt v.data with
    | some n => n
    | none => dflt
  | none => dflt

/-- The flags block of `from_xml`: start from the dataclass defaults and
update each of the six recognized keys from the `flags` child, if present. -/
def parseFlags (elem : Elem) : Flags :=
  match elem.find "flags" with
  | some fe =>
    { count_in_cargo := flagVal fe "count_in_cargo" defaultFlags.count_in_cargo,
      count_in_hoarder := flagVal fe "count_in_hoarder" defaultFlags.count_in_hoarder,
      count_in_map := flagVal fe "count_in_map" defaultFlags.count_in_map,
      count_in_player := flagVal fe "count_in_player" defaultFlags.count_in_player,
      crafted := flagVal fe "crafted" defaultFlags.crafted,
      deloot := flagVal fe "deloot" defaultFlags.deloot }
  | none => defaultFlags

/-- The category block of `from_xml` (lines 220-222): the `name` attribute of
the `category` child, when that child exists. -/
def parseCategory (elem : Elem) : Option String :=
  match elem.find "category" with
  | some ce => ce.get "name"
  | none => none

/-- `[u.get("name") for u in elem.findall(t) if u.get("name")]`: keep each
child's `name` attribute when it is truthy (present and non-empty). -/
def nameOfChild (u : Elem) : Option String :=
  match u.get "name" with
  | some s => if s = "" then none else some s
  | none => none

def namedList (elem : Elem) (t : String) : List String :=
  (elem.findall t).filterMap nameOfChild

/-- `TypeEntry.from_xml` (lines 188-227). The Python constructs the entry and
then mutates `flags`, `category`, `usages`, `values`, `tags`; each field is
written exactly once, so the whole is one record literal here. -/
def TypeEntry.from_xml (elem : Elem) : TypeEntry :=
  { name := (elem.get "name").getD ""
    nominal := get_int elem "nominal"
    lifetime := get_int elem "lifetime"
    restock := get_int elem "restock"
    min := get_int elem "min"
    quantmin := get_int elem "quantmin"
    quantmax := get_int elem "quantmax"
    cost := get_int elem "cost"
    flags := parseFlags elem
    category := parseCategory elem
    usages := namedList elem "usage"
    values := namedList elem "value"
    tags := namedList elem "tag" }

/-- One optional-integer child in `to_xml` (`put_int`, lines 231-234): a
subelement with the decimal text, or nothing when the field is `None`. -/
def intChild (tag : String) (v : Int) : Elem := .mk tag [] [] (some (pyStr v))

def put_int (tag : String) : Option Int → List Elem
  | some v => [intChild tag v]
  | none => []

/-- The `flags` child written by `to_xml` (lines 242-246): the guard
`any(int(v) != 0 for v in self.flags.values()) or True` is identically true,
so the element is always emitted, one `0`/`1`-style attribute per key in the
dict's insertion order; the attribute text is `str(int(v))`. -/
def flagsChild (fl : Flags) : Elem :=
  .mk "flags"
    [("count_in_cargo", pyStr fl.count_in_cargo),
     ("count_in_hoarder", pyStr fl.count_in_hoarder),
     ("count_in_map", pyStr fl.count_in_map),
     ("count_in_player", pyStr fl.count_in_player),
     ("crafted", pyStr fl.crafted),
     ("deloot", pyStr fl.deloot)]
    [] none

/-- A `category`/`usage`/`value`/`tag` child: tag plus a `name` attribute. -/
def namedChild (tag : String) (n : String) : Elem := .mk tag [("name", n)] [] none

/-- The category child list of `to_xml` (lines 247-250): emitted only when
`self.category` is truthy (present and non-empty). -/
def categoryChildren : Option String → List Elem
  | some c => if c = "" then [] else [namedChild "category" c]
  | none => []

/-- `TypeEntry.to_xml` (lines 229-261): a `type` element carrying the name
attribute and children in the fixed order the method appends them. -/
def TypeEntry.to_xml (e : TypeEntry) : Elem :=
  .mk "type" [("name", e.name)]
    (put_int "nominal" e.nominal ++ put_int "lifetime" e.lifetime ++
     put_int "restock" e.restock ++ put_int "min" e.min ++
     put_int "quantmin" e.quantmin ++ put_int "quantmax" e.quantmax ++
     put_int "cost" e.cost ++
     [flagsChild e.flags] ++
     categoryChildren e.category ++
     e.usages.map (namedChild "usage") ++
     e.values.map (namedChild "value") ++
     e.tags.map (namedChild "tag"))
    none

/-! ## Concrete records and elements used as witnesses / counterexamples -/

def sampleEntry : TypeEntry :=
  { name := "M4A1", nominal := some 12, lifetime := some 14400,
    restock := none, min := some 4, quantmin := some (-1),
    quantmax := some (-1), cost := some 100,
    flags := { count_in_cargo := 0, count_in_hoarder := 0, count_in_map := 1,
               count_in_player := 0, crafted := 0, deloot := 0 },
    category := some "weapons", usages := ["military", "police"],
    values := ["Tier3"], tags := ["floor"] }

/-- A record whose `usages` list contains the empty string. -/
def emptyUsageEntry : TypeEntry := { name := "A", usages := [""] }

/-- A record with every optional integer field absent. -/
def bareEntry : TypeEntry := { name := "Bare" }

/-- A record whose `count_in_cargo` flag holds the integer 2 (producible by
`from_xml` from a document with `count_in_cargo="2"`). -/
def flagTwoEntry : TypeEntry :=
  { name := "X", flags := { defaultFlags with count_in_cargo := 2 } }

/-- A record whose category is the empty string (as opposed to absent). -/
def emptyCategoryEntry : TypeEntry := { name := "E", category := some "" }

def allZeroFlags : Flags :=
  { count_in_cargo := 0, count_in_hoarder := 0, count_in_map := 0,
    count_in_player := 0, crafted := 0, deloot := 0 }

/-- A record with every flag false (including `count_in_map`). -/
def allZeroEntry : TypeEntry := { name := "W", flags := allZeroFlags }

/-- A `nominal` child whose text does not parse as an integer. -/
def badIntChild : Elem := .mk "nominal" [] [] (some "abc")

def badIntElem : Elem := .mk "type" [("name", "B")] [badIntChild] none

/-- A `flags` element whose `crafted` attribute is not an integer. -/
def badFlagsElem : Elem := .mk "flags" [("crafted", "yes")] [] none

/-! ## Collection-level state and operations (`MainWindow`, lines 500-729) -/

/-- `CATEGORY_PRESETS` (line 151): the fixed baseline category names. -/
def CATEGORY_PRESETS : List String :=
  ["weapons", "food", "tools", "clothes", "books", "containers",
   "explosives", "lootdispatch"]

/-- The slice of `MainWindow` state the collection operations read and
write: `self.entries` and `self.category_pool`. -/
structure AppState where
  entries : List TypeEntry
  category_pool : List String
deriving DecidableEq

/-- Outcome of `save_selected_changes`: an entry appended, a duplicate-name
warning shown (operation rejected), or the `NameError` raised on the update
path (see `save_selected_changes` below). -/
inductive SaveStatus where
  | added
  | duplicateRejected
  | nameError
deriving DecidableEq

structure SaveResult where
  status : SaveStatus
  entries : List TypeEntry
  category_pool : List String
deriving DecidableEq

/-- `MainWindow.save_selected_changes` (lines 667-695), after
`collect_entry` has produced `entry`. `sel` is the selected position
(`none` both when no list item is current and when the editor holds no
current entry — line 672). With no selection, a colliding name is rejected
with a warning (state unchanged), else the entry is appended and its truthy
category added to the pool if missing. With a selected `idx`, a name
colliding with any *other* position is rejected with a warning; otherwise
line 684 executes `self.entries[idx] = entryry`, and `entryry` is an
undefined name — Python raises `NameError` there, before any mutation, and
the exception propagates out of the slot, so entries and pool are unchanged. -/
def save_selected_changes (entries : List TypeEntry)
    (category_pool : List String) (sel : Option Nat) (entry : TypeEntry) :
    SaveResult :=
  match sel with
  | none =>
    if entries.any (fun e => e.name == entry.name) then
      { status := .duplicateRejected, entries := entries,
        category_pool := category_pool }
    else
      { status := .added, entries := entries ++ [entry],
        category_pool :=
          match entry.category with
          | some c =>
            if c = "" then category_pool
            else if c ∈ category_pool then category_pool
            else category_pool ++ [c]
          | none => category_pool }
  | some idx =>
    if entries.enum.any (fun p => p.1 != idx && p.2.name == entry.name) then
      { status := .duplicateRejected, entries := entries,
        category_pool := category_pool }
    else
      { status := .nameError, entries := entries,
        category_pool := category_pool }

/-- `MainWindow.duplicate_type` (lines 632-655): requires a current item, so
the row index is in bounds; builds a copy with fresh `flags`/`usages`/
`values`/`tags` containers (`dict(...)`, `list(...)`), the name suffixed
with `_Copy`, and inserts it at `idx + 1` (`self.entries.insert(idx+1, dup)`). -/
def duplicate_type (entries : List TypeEntry) (idx : Nat)
    (h : idx < entries.length) : List TypeEntry :=
  let src := entries.get ⟨idx, h⟩
  let dup : TypeEntry :=
    { name := src.name ++ "_Copy", nominal := src.nominal,
      lifetime := src.lifetime, restock := src.restock, min := src.min,
      quantmin := src.quantmin, quantmax := src.quantmax, cost := src.cost,
      flags := src.flags, category := src.category, usages := src.usages,
      values := src.values, tags := src.tags }
  entries.take (idx + 1) ++ dup :: entries.drop (idx + 1)

/-- `if e.category:` truthiness test used when accumulating categories. -/
def entryCategory (e : TypeEntry) : Option String :=
  match e.category with
  | some c => if c = "" then none else some c
  | none => none

/-- Python `sorted` over a set of strings. Python compares strings
lexicographically by code point and, on a set (no duplicates), `sorted`
returns the unique ascending enumeration; insertion sort by `≤` produces a
sorted permutation, hence the same list. -/
def pySorted (l : List String) : List String :=
  List.insertionSort (fun a b => a ≤ b) l

inductive ImportOutcome where
  | ok (st : AppState)
  | failed (st : AppState)
deriving DecidableEq

/-- The window state after an import attempt: replaced on success, the prior
state untouched on failure. -/
def importState : ImportOutcome → AppState
  | .ok st => st
  | .failed st => st

/-- `MainWindow.action_import` (lines 706-729), after the file has been read
and parsed into the root element `root`. A root tag other than `types`
raises `ValueError` before any assignment; the handler shows a message box
and the prior state stays. Otherwise every `type` child is parsed, the
category set is rebuilt from scratch from the parsed entries' truthy
categories (a Python set), and `category_pool` becomes
`sorted(set(CATEGORY_PRESETS).union(cats))`. -/
def action_import (st : AppState) (root : Elem) : ImportOutcome :=
  if root.tag = "types" then
    let entries := (root.findall "type").map TypeEntry.from_xml
    let cats := entries.filterMap entryCategory
    .ok { entries := entries,
          category_pool := pySorted ((CATEGORY_PRESETS ++ cats).dedup) }
  else .failed st

/-! ### Concrete collection-level inputs for witnesses / counterexamples -/

/-- An entry sharing `sampleEntry`'s name (for the duplicate-add test). -/
def dupNameEntry : TypeEntry := { name := "M4A1", nominal := some 5 }

/-- A fresh-named entry to save over a selected position. -/
def renamedEntry : TypeEntry := { name := "AKM" }

def emptyState : AppState := { entries := [], category_pool := [] }

/-- A `type` element with only a category child. -/
def typeWithCategory (nm cat : String) : Elem :=
  .mk "type" [("name", nm)] [.mk "category" [("name", cat)] [] none] none

/-- First imported document: categories alpha, common. -/
def importDocOne : Elem :=
  .mk "types" []
    [typeWithCategory "A" "alpha", typeWithCategory "B" "common"] none

/-- Second imported document: categories beta, common — overlapping with but
not identical to the first document's category set. -/
def importDocTwo : Elem :=
  .mk "types" []
    [typeWithCategory "C" "beta", typeWithCategory "D" "common"] none

/-- A document whose root tag is `items` rather than `types`. -/
def itemsDoc : Elem := .mk "items" [] [] none

/-! ### Round-trip facts about `pyStr` / `pyInt` -/

theorem digitChar_isDigit {d : Nat} (h : d < 10) :
    (Nat.digitChar d).isDigit = true := by
  interval_cases d <;> decide

theorem digitChar_not_ws {d : Nat} (h : d < 10) :
    (Nat.digitChar d).isWhitespace = false := by
  interval_cases d <;> decide

theorem digitChar_val {d : Nat} (h : d < 10) :
    (Nat.digitChar d).toNat - 48 = d := by
  interval_cases d <;> decide

theorem natDigitsAux_ne_nil {fuel n : Nat} (h : n < fuel) :
    natDigitsAux fuel n ≠ [] := by
  match fuel with
  | 0 => omega
  | fuel + 1 =>
    by_cases h10 : n < 10 <;> simp [natDigitsAux, h10]

theorem natDigitsAux_isDigit {fuel n : Nat} (h : n < fuel) :
    ∀ c ∈ natDigitsAux fuel n, c.isDigit = true := by
  induction fuel generalizing n with
  | zero => omega
  | succ fuel ih =>
    intro c hc
    by_cases h10 : n < 10
    · simp only [natDigitsAux, if_pos h10, List.mem_singleton] at hc
      exact hc ▸ digitChar_isDigit h10
    · simp only [natDigitsAux, if_neg h10, List.mem_append, List.mem_singleton] at hc
      rcases hc with hc | hc
      · exact ih (by omega : n / 10 < fuel) c hc
      · exact hc ▸ digitChar_isDigit (Nat.mod_lt _ (by omega))

theorem natDigitsAux_not_ws {fuel n : Nat} (h : n < fuel) :
    ∀ c ∈ natDigitsAux fuel n, c.isWhitespace = false := by
  induction fuel generalizing n with
  | zero => omega
  | succ fuel ih =>
    intro c hc
    by_cases h10 : n < 10
    · simp only [natDigitsAux, if_pos h10, List.mem_singleton] at hc
      exact hc ▸ digitChar_not_ws h10
    · simp only [natDigitsAux, if_neg h10, List.mem_append, List.mem_singleton] at hc
      rcases hc with hc | hc
      · exact ih (by omega : n / 10 < fuel) c hc
      · exact hc ▸ digitChar_not_ws (Nat.mod_lt _ (by omega))

theorem natDigitsAux_foldl {fuel : Nat} :
    ∀ {n : Nat}, n < fuel → ∀ a : Nat,
      (natDigitsAux fuel n).foldl (fun acc c => acc * 10 + (c.toNat - 48)) a
        = a * 10 ^ (natDigitsAux fuel n).length + n := by
  induction fuel with
  | zero => omega
  | succ fuel ih =>
    intro n h a
    by_cases h10 : n < 10
    · simp only [natDigitsAux, if_pos h10, List.foldl_cons, List.foldl_nil,
        List.length_singleton, pow_one]
      rw [digitChar_val h10]
    · have hdiv : n / 10 < fuel := by
        have := Nat.div_lt_self (by omega : 0 < n) (by omega : 1 < 10)
        omega
      simp only [natDigitsAux, if_neg h10, List.foldl_append, List.foldl_cons,
        List.foldl_nil, List.length_append, List.length_singleton]
      rw [ih hdiv a, digitChar_val (Nat.mod_lt _ (by omega))]
      have : a * 10 ^ ((natDigitsAux fuel (n / 10)).length + 1)
          = a * 10 ^ (natDigitsAux fuel (n / 10)).length * 10 := by ring
      rw [this]
      have hmod := Nat.div_add_mod n 10
      omega

theorem parseDigits_natDigits (n : Nat) : parseDigits (natDigits n) = some n := by
  have hne := natDigitsAux_ne_nil (Nat.lt_succ_self n)
  have hdig := natDigitsAux_isDigit (Nat.lt_succ_self n)
  have hfold := natDigitsAux_foldl (Nat.lt_succ_self n) 0
  simp only [natDigits] at *
  simp only [parseDigits, if_neg hne, List.all_eq_true]
  rw [if_pos hdig, hfold]
  simp

theorem dropWhile_of_not_ws {l : List Char}
    (h : ∀ c ∈ l, c.isWhitespace = false) :
    l.dropWhile Char.isWhitespace = l := by
  cases l with
  | nil => rfl
  | cons c cs => simp [List.dropWhile_cons, h c (List.mem_cons_self c cs)]

theorem pyStrip_of_not_ws {l : List Char}
    (h : ∀ c ∈ l, c.isWhitespace = false) : pyStrip l = l := by
  have h2 : ∀ c ∈ l.reverse, c.isWhitespace = false := by
    intro c hc
    exact h c (List.mem_reverse.mp hc)
  simp [pyStrip, dropWhile_of_not_ws h, dropWhile_of_not_ws h2]

theorem natDigits_not_ws (n : Nat) :
    ∀ c ∈ natDigits n, c.isWhitespace = false :=
  natDigitsAux_not_ws (Nat.lt_succ_self n)

theorem intDecimal_not_ws (v : Int) :
    ∀ c ∈ intDecimal v, c.isWhitespace = false := by
  intro c hc
  by_cases hv : v < 0
  · simp only [intDecimal, if_pos hv, List.mem_cons] at hc
    rcases hc with hc | hc
    · subst hc; decide
    · exact natDigits_not_ws _ c hc
  · simp only [intDecimal, if_neg hv] at hc
    exact natDigits_not_ws _ c hc

theorem pyStrip_intDecimal (v : Int) : pyStrip (intDecimal v) = intDecimal v :=
  pyStrip_of_not_ws (intDecimal_not_ws v)

theorem intDecimal_ne_nil (v : Int) : intDecimal v ≠ [] := by
  by_cases hv : v < 0
  · simp [intDecimal, if_pos hv]
  · simp only [intDecimal, if_neg hv]
    exact natDigitsAux_ne_nil (Nat.lt_succ_self _)

/-- Parsing the canonical decimal rendering of an integer recovers it:
`int(str(v)) = v`. -/
theorem pyInt_intDecimal (v : Int) : pyInt (intDecimal v) = some v := by
  by_cases hv : v < 0
  · have hd : intDecimal v = '-' :: natDigits v.natAbs := by
      simp [intDecimal, if_pos hv]
    rw [pyInt, pyStrip_intDecimal, hd]
    have habs : (v.natAbs : Int) = -v := Int.ofNat_natAbs_of_nonpos (le_of_lt hv)
    simp [parseDigits_natDigits, habs]
  · have hd : intDecimal v = natDigits v.toNat := by
      simp [intDecimal, if_neg hv]
    rw [pyInt, pyStrip_intDecimal, hd]
    obtain ⟨c, cs, hcons⟩ : ∃ c cs, natDigits v.toNat = c :: cs := by
      cases h : natDigits v.toNat with
      | nil => exact absurd h (natDigitsAux_ne_nil (Nat.lt_succ_self _))
      | cons c cs => exact ⟨c, cs, rfl⟩
    have hcdig : c.isDigit = true := by
      have hall := natDigitsAux_isDigit (Nat.lt_succ_self v.toNat) (c := c)
      rw [show natDigitsAux (v.toNat + 1) v.toNat = natDigits v.toNat from rfl,
        hcons] at hall
      exact hall (List.mem_cons_self c cs)
    have hcm : c ≠ '-' := by rintro rfl; simp [Char.isDigit] at hcdig
    have hcp : c ≠ '+' := by rintro rfl; simp [Char.isDigit] at hcdig
    rw [hcons]
    simp only [if_neg hcm, if_neg hcp, ← hcons, parseDigits_natDigits]
    simp [Int.toNat_of_nonneg (not_lt.mp hv)]

/-! ### Locating children inside a serialized `type` element -/

theorem findChild_append (l₁ l₂ : List Elem) (t : String) :
    findChild (l₁ ++ l₂) t = (findChild l₁ t).or (findChild l₂ t) := by
  induction l₁ with
  | nil => simp [findChild]
  | cons c cs ih =>
    by_cases h : c.tag = t <;> simp [findChild, h, ih]

theorem findChild_put_int_ne {tag t : String} (v : Option Int) (h : tag ≠ t) :
    findChild (put_int tag v) t = none := by
  cases v <;> simp [put_int, findChild, intChild, Elem.tag, h]

theorem findChild_put_int_self (tag : String) (v : Option Int) :
    findChild (put_int tag v) tag = Option.map (intChild tag) v := by
  cases v <;> simp [put_int, findChild, intChild, Elem.tag]

theorem tag_flagsChild (fl : Flags) : (flagsChild fl).tag = "flags" := rfl

theorem tag_namedChild (tg n : String) : (namedChild tg n).tag = tg := rfl

theorem tag_intChild (tag : String) (v : Int) : (intChild tag v).tag = tag := rfl

theorem findChild_flags_ne {t : String} (fl : Flags) (h : t ≠ "flags") :
    findChild [flagsChild fl] t = none := by
  have h2 : ¬(flagsChild fl).tag = t := by
    rw [tag_flagsChild]; exact Ne.symm h
  simp [findChild, h2]

theorem findChild_category_ne {t : String} (cat : Option String)
    (h : t ≠ "category") : findChild (categoryChildren cat) t = none := by
  match cat with
  | none => simp [categoryChildren, findChild]
  | some c =>
    by_cases hc : c = ""
    · simp [categoryChildren, hc, findChild]
    · have h2 : ¬(namedChild "category" c).tag = t := by
        rw [tag_namedChild]; exact Ne.symm h
      simp [categoryChildren, hc, findChild, h2]

theorem findChild_namedChild_ne {tg t : String} (l : List String) (h : tg ≠ t) :
    findChild (l.map (namedChild tg)) t = none := by
  induction l with
  | nil => simp [findChild]
  | cons s rest ih => simp [findChild, namedChild, Elem.tag, h, ih]

theorem tag_of_mem_put_int {c : Elem} {tag : String} {v : Option Int}
    (h : c ∈ put_int tag v) : c.tag = tag := by
  cases v with
  | none => simp [put_int] at h
  | some x =>
    simp only [put_int, List.mem_singleton] at h
    simp [h, intChild, Elem.tag]

theorem tag_of_mem_categoryChildren {c : Elem} {cat : Option String}
    (h : c ∈ categoryChildren cat) : c.tag = "category" := by
  match cat with
  | none => simp [categoryChildren] at h
  | some s =>
    by_cases hs : s = ""
    · simp [categoryChildren, hs] at h
    · simp only [categoryChildren, if_neg hs, List.mem_singleton] at h
      simp [h, namedChild, Elem.tag]

theorem tag_of_mem_namedChild_map {c : Elem} {tg : String} {l : List String}
    (h : c ∈ l.map (namedChild tg)) : c.tag = tg := by
  simp only [List.mem_map] at h
  obtain ⟨s, _, rfl⟩ := h
  simp [namedChild, Elem.tag]

/-- Case split for membership in the children of a serialized record. -/
theorem mem_to_xml_children {e : TypeEntry} {c : Elem}
    (h : c ∈ (TypeEntry.to_xml e).children) :
    c ∈ put_int "nominal" e.nominal ∨ c ∈ put_int "lifetime" e.lifetime ∨
    c ∈ put_int "restock" e.restock ∨ c ∈ put_int "min" e.min ∨
    c ∈ put_int "quantmin" e.quantmin ∨ c ∈ put_int "quantmax" e.quantmax ∨
    c ∈ put_int "cost" e.cost ∨ c = flagsChild e.flags ∨
    c ∈ categoryChildren e.category ∨ c ∈ e.usages.map (namedChild "usage") ∨
    c ∈ e.values.map (namedChild "value") ∨ c ∈ e.tags.map (namedChild "tag") := by
  simpa [TypeEntry.to_xml, Elem.children, List.mem_append, or_assoc] using h

/-! ### Component lemmas for the serialize-then-parse round trip -/

theorem find_to_xml_flags (e : TypeEntry) :
    (TypeEntry.to_xml e).find "flags" = some (flagsChild e.flags) := by
  simp [TypeEntry.to_xml, Elem.find, Elem.children, findChild_append,
    findChild_put_int_ne, findChild, tag_flagsChild]

theorem findChild_cons_ne {c : Elem} {cs : List Elem} {t : String}
    (h : ¬c.tag = t) : findChild (c :: cs) t = findChild cs t := by
  simp [findChild, h]

theorem find_to_xml_category (e : TypeEntry) :
    (TypeEntry.to_xml e).find "category"
      = findChild (categoryChildren e.category) "category" := by
  simp [TypeEntry.to_xml, Elem.find, Elem.children, findChild_append,
    findChild_put_int_ne, findChild_cons_ne, tag_flagsChild,
    findChild_namedChild_ne]

theorem data_pyStr (v : Int) : (pyStr v).data = intDecimal v := rfl

theorem find_to_xml_nominal (e : TypeEntry) :
    (TypeEntry.to_xml e).find "nominal" = Option.map (intChild "nominal") e.nominal := by
  simp [TypeEntry.to_xml, Elem.find, Elem.children, findChild_append,
    findChild_put_int_self, findChild_put_int_ne, findChild_cons_ne,
    tag_flagsChild, findChild_category_ne, findChild_namedChild_ne]

theorem find_to_xml_lifetime (e : TypeEntry) :
    (TypeEntry.to_xml e).find "lifetime" = Option.map (intChild "lifetime") e.lifetime := by
  simp [TypeEntry.to_xml, Elem.find, Elem.children, findChild_append,
    findChild_put_int_self, findChild_put_int_ne, findChild_cons_ne,
    tag_flagsChild, findChild_category_ne, findChild_namedChild_ne]

theorem find_to_xml_restock (e : TypeEntry) :
    (TypeEntry.to_xml e).find "restock" = Option.map (intChild "restock") e.restock := by
  simp [TypeEntry.to_xml, Elem.find, Elem.children, findChild_append,
    findChild_put_int_self, findChild_put_int_ne, findChild_cons_ne,
    tag_flagsChild, findChild_category_ne, findChild_namedChild_ne]

theorem find_to_xml_min (e : TypeEntry) :
    (TypeEntry.to_xml e).find "min" = Option.map (intChild "min") e.min := by
  simp [TypeEntry.to_xml, Elem.find, Elem.children, findChild_append,
    findChild_put_int_self, findChild_put_int_ne, findChild_cons_ne,
    tag_flagsChild, findChild_category_ne, findChild_namedChild_ne]

theorem find_to_xml_quantmin (e : TypeEntry) :
    (TypeEntry.to_xml e).find "quantmin" = Option.map (intChild "quantmin") e.quantmin := by
  simp [TypeEntry.to_xml, Elem.find, Elem.children, findChild_append,
    findChild_put_int_self, findChild_put_int_ne, findChild_cons_ne,
    tag_flagsChild, findChild_category_ne, findChild_namedChild_ne]

theorem find_to_xml_quantmax (e : TypeEntry) :
    (TypeEntry.to_xml e).find "quantmax" = Option.map (intChild "quantmax") e.quantmax := by
  simp [TypeEntry.to_xml, Elem.find, Elem.children, findChild_append,
    findChild_put_int_self, findChild_put_int_ne, findChild_cons_ne,
    tag_flagsChild, findChild_category_ne, findChild_namedChild_ne]

theorem find_to_xml_cost (e : TypeEntry) :
    (TypeEntry.to_xml e).find "cost" = Option.map (intChild "cost") e.cost := by
  simp [TypeEntry.to_xml, Elem.find, Elem.children, findChild_append,
    findChild_put_int_self, findChild_put_int_ne, findChild_cons_ne,
    tag_flagsChild, findChild_category_ne, findChild_namedChild_ne]

/-- Reading back a serialized optional-integer child: whenever `find` on the
serialized element returns exactly the child `put_int` would have emitted,
`get_int` recovers the field value. -/
theorem get_int_of_find_intChild {el : Elem} {tag : String} {v : Option Int}
    (h : el.find tag = Option.map (intChild tag) v) : get_int el tag = v := by
  cases v with
  | none => simp [get_int, h]
  | some x =>
    simp [get_int, h, intChild, Elem.text, data_pyStr, pyStrip_intDecimal,
      intDecimal_ne_nil, pyInt_intDecimal]

/-! ### `findall` over a serialized `type` element -/

theorem filter_put_int_ne {tag t : String} (v : Option Int) (h : tag ≠ t) :
    (put_int tag v).filter (fun c => c.tag == t) = [] := by
  cases v <;> simp [put_int, intChild, Elem.tag, h]

theorem filter_flags_ne {t : String} (fl : Flags) (h : t ≠ "flags") :
    [flagsChild fl].filter (fun c => c.tag == t) = [] := by
  simp [tag_flagsChild, Ne.symm h]

theorem filter_category_ne {t : String} (cat : Option String)
    (h : t ≠ "category") :
    (categoryChildren cat).filter (fun c => c.tag == t) = [] := by
  match cat with
  | none => simp [categoryChildren]
  | some c =>
    by_cases hc : c = ""
    · simp [categoryChildren, hc]
    · simp [categoryChildren, hc, tag_namedChild, Ne.symm h]

theorem filter_namedChild_map_ne {tg t : String} (l : List String) (h : tg ≠ t) :
    (l.map (namedChild tg)).filter (fun c => c.tag == t) = [] := by
  induction l with
  | nil => simp
  | cons s rest ih => simp [tag_namedChild, h, ih]

theorem filter_namedChild_map_self (tg : String) (l : List String) :
    (l.map (namedChild tg)).filter (fun c => c.tag == tg)
      = l.map (namedChild tg) := by
  induction l with
  | nil => simp
  | cons s rest ih => simp [tag_namedChild, ih]

theorem put_int_none (tag : String) : put_int tag none = [] := rfl

theorem not_mem_put_int_tag {tag t : String} (v : Option Int) (h : tag ≠ t) :
    ∀ c ∈ put_int tag v, ¬c.tag = t := by
  intro c hc
  rw [tag_of_mem_put_int hc]
  exact h

theorem not_mem_categoryChildren_tag {t : String} (cat : Option String)
    (h : t ≠ "category") : ∀ c ∈ categoryChildren cat, ¬c.tag = t := by
  intro c hc
  rw [tag_of_mem_categoryChildren hc]
  exact Ne.symm h

theorem not_mem_namedChild_map_tag {tg t : String} (l : List String)
    (h : tg ≠ t) : ∀ c ∈ l.map (namedChild tg), ¬c.tag = t := by
  intro c hc
  rw [tag_of_mem_namedChild_map hc]
  exact h

theorem findall_to_xml_usage (e : TypeEntry) :
    (TypeEntry.to_xml e).findall "usage" = e.usages.map (namedChild "usage") := by
  simp [Elem.findall, TypeEntry.to_xml, Elem.children, List.filter_append,
    filter_put_int_ne, filter_flags_ne, filter_category_ne,
    filter_namedChild_map_ne, filter_namedChild_map_self, tag_flagsChild]

theorem findall_to_xml_value (e : TypeEntry) :
    (TypeEntry.to_xml e).findall "value" = e.values.map (namedChild "value") := by
  simp [Elem.findall, TypeEntry.to_xml, Elem.children, List.filter_append,
    filter_put_int_ne, filter_flags_ne, filter_category_ne,
    filter_namedChild_map_ne, filter_namedChild_map_self, tag_flagsChild]

theorem findall_to_xml_tag (e : TypeEntry) :
    (TypeEntry.to_xml e).findall "tag" = e.tags.map (namedChild "tag") := by
  simp [Elem.findall, TypeEntry.to_xml, Elem.children, List.filter_append,
    filter_put_int_ne, filter_flags_ne, filter_category_ne,
    filter_namedChild_map_ne, filter_namedChild_map_self, tag_flagsChild]

theorem filterMap_nameOfChild (tg : String) (l : List String)
    (h : ∀ s ∈ l, s ≠ "") :
    (l.map (namedChild tg)).filterMap nameOfChild = l := by
  induction l with
  | nil => simp
  | cons s rest ih =>
    have hs : s ≠ "" := h s (List.mem_cons_self s rest)
    simp [nameOfChild, namedChild, Elem.get, Elem.attrs, getAttr, hs,
      ih (fun x hx => h x (List.mem_cons_of_mem s hx))]

theorem flagVal_flagsChild_cargo (fl : Flags) (d : Int) :
    flagVal (flagsChild fl) "count_in_cargo" d = fl.count_in_cargo := by
  simp [flagVal, Elem.get, flagsChild, Elem.attrs, getAttr, data_pyStr,
    pyInt_intDecimal]

theorem flagVal_flagsChild_hoarder (fl : Flags) (d : Int) :
    flagVal (flagsChild fl) "count_in_hoarder" d = fl.count_in_hoarder := by
  simp [flagVal, Elem.get, flagsChild, Elem.attrs, getAttr, data_pyStr,
    pyInt_intDecimal]

theorem flagVal_flagsChild_map (fl : Flags) (d : Int) :
    flagVal (flagsChild fl) "count_in_map" d = fl.count_in_map := by
  simp [flagVal, Elem.get, flagsChild, Elem.attrs, getAttr, data_pyStr,
    pyInt_intDecimal]

theorem flagVal_flagsChild_player (fl : Flags) (d : Int) :
    flagVal (flagsChild fl) "count_in_player" d = fl.count_in_player := by
  simp [flagVal, Elem.get, flagsChild, Elem.attrs, getAttr, data_pyStr,
    pyInt_intDecimal]

theorem flagVal_flagsChild_crafted (fl : Flags) (d : Int) :
    flagVal (flagsChild fl) "crafted" d = fl.crafted := by
  simp [flagVal, Elem.get, flagsChild, Elem.attrs, getAttr, data_pyStr,
    pyInt_intDecimal]

theorem flagVal_flagsChild_deloot (fl : Flags) (d : Int) :
    flagVal (flagsChild fl) "deloot" d = fl.deloot := by
  simp [flagVal, Elem.get, flagsChild, Elem.attrs, getAttr, data_pyStr,
    pyInt_intDecimal]

theorem parseFlags_to_xml (e : TypeEntry) :
    parseFlags (TypeEntry.to_xml e) = e.flags := by
  rw [parseFlags, find_to_xml_flags]
  exact Flags.ext (flagVal_flagsChild_cargo _ _) (flagVal_flagsChild_hoarder _ _)
    (flagVal_flagsChild_map _ _) (flagVal_flagsChild_player _ _)
    (flagVal_flagsChild_crafted _ _) (flagVal_flagsChild_deloot _ _)

theorem parseCategory_to_xml (e : TypeEntry) (hcat : e.category ≠ some "") :
    parseCategory (TypeEntry.to_xml e) = e.category := by
  rw [parseCategory, find_to_xml_category]
  match hc : e.category with
  | none => simp [categoryChildren, findChild]
  | some c =>
    have hne : c ≠ "" := fun h => hcat (hc ▸ h ▸ rfl)
    simp [categoryChildren, hne, findChild, namedChild, Elem.tag,
      Elem.get, Elem.attrs, getAttr]

theorem namedList_to_xml_usage (e : TypeEntry) (h : ∀ s ∈ e.usages, s ≠ "") :
    namedList (TypeEntry.to_xml e) "usage" = e.usages := by
  rw [namedList, findall_to_xml_usage]
  exact filterMap_nameOfChild _ _ h

theorem namedList_to_xml_value (e : TypeEntry) (h : ∀ s ∈ e.values, s ≠ "") :
    namedList (TypeEntry.to_xml e) "value" = e.values := by
  rw [namedList, findall_to_xml_value]
  exact filterMap_nameOfChild _ _ h

theorem namedList_to_xml_tag (e : TypeEntry) (h : ∀ s ∈ e.tags, s ≠ "") :
    namedList (TypeEntry.to_xml e) "tag" = e.tags := by
  rw [namedList, findall_to_xml_tag]
  exact filterMap_nameOfChild _ _ h

theorem name_to_xml (e : TypeEntry) :
    ((TypeEntry.to_xml e).get "name").getD "" = e.name := by
  simp [TypeEntry.to_xml, Elem.get, Elem.attrs, getAttr]

/-! ## C1: serialize/parse round trip of a record -/

/-- **C1** (amended: the usage/value/tag sequences must consist of non-empty
strings; parsing drops children whose `name` attribute is empty, so an empty
string in one of the three lists does not survive the round trip — see the
counterexample below). For any record with present-or-absent optional
integers, a non-empty-or-absent category, and usage/value/tag sequences of
non-empty strings, parsing the serialized node yields the record back,
field for field, the three list fields in order. -/
theorem serialize_parse_roundtrip (e : TypeEntry)
    (hcat : e.category ≠ some "")
    (hu : ∀ s ∈ e.usages, s ≠ "") (hv : ∀ s ∈ e.values, s ≠ "")
    (ht : ∀ s ∈ e.tags, s ≠ "") :
    TypeEntry.from_xml (TypeEntry.to_xml e) = e := by
  have h1 := name_to_xml e
  have h2 := get_int_of_find_intChild (find_to_xml_nominal e)
  have h3 := get_int_of_find_intChild (find_to_xml_lifetime e)
  have h4 := get_int_of_find_intChild (find_to_xml_restock e)
  have h5 := get_int_of_find_intChild (find_to_xml_min e)
  have h6 := get_int_of_find_intChild (find_to_xml_quantmin e)
  have h7 := get_int_of_find_intChild (find_to_xml_quantmax e)
  have h8 := get_int_of_find_intChild (find_to_xml_cost e)
  have h9 := parseFlags_to_xml e
  have h10 := parseCategory_to_xml e hcat
  have h11 := namedList_to_xml_usage e hu
  have h12 := namedList_to_xml_value e hv
  have h13 := namedList_to_xml_tag e ht
  rw [TypeEntry.from_xml, h1, h2, h3, h4, h5, h6, h7, h8, h9, h10, h11, h12, h13]

/-- Witness: the round trip instantiated on a concrete record with a mix of
present and absent integers, a category, and non-empty list entries. -/
theorem serialize_parse_roundtrip_witness :
    (sampleEntry.category ≠ some "" ∧ (∀ s ∈ sampleEntry.usages, s ≠ "") ∧
      (∀ s ∈ sampleEntry.values, s ≠ "") ∧ (∀ s ∈ sampleEntry.tags, s ≠ "")) ∧
    TypeEntry.from_xml (TypeEntry.to_xml sampleEntry) = sampleEntry :=
  ⟨⟨by decide, by decide, by decide, by decide⟩,
    serialize_parse_roundtrip sampleEntry (by decide) (by decide) (by decide)
      (by decide)⟩

/-- Counterexample to C1 as stated: with the arbitrary usage sequence `[""]`
(and absent category), the round trip loses the empty entry, because
`from_xml` keeps only children whose `name` attribute is truthy. -/
theorem serialize_parse_roundtrip_cex :
    TypeEntry.from_xml (TypeEntry.to_xml emptyUsageEntry) ≠ emptyUsageEntry := by
  decide

/-! ## C4: absent optional integer fields leave no child at all -/

/-- **C4**: for each of the seven optional integer fields, when the field is
absent the serialized `type` node has no child with that tag at all (in
particular none with text `0` and none empty): `findall` for that tag over
the serialized node's direct children is empty. -/
theorem absent_int_fields_no_child (e : TypeEntry) :
    (e.nominal = none → (TypeEntry.to_xml e).findall "nominal" = []) ∧
    (e.lifetime = none → (TypeEntry.to_xml e).findall "lifetime" = []) ∧
    (e.restock = none → (TypeEntry.to_xml e).findall "restock" = []) ∧
    (e.min = none → (TypeEntry.to_xml e).findall "min" = []) ∧
    (e.quantmin = none → (TypeEntry.to_xml e).findall "quantmin" = []) ∧
    (e.quantmax = none → (TypeEntry.to_xml e).findall "quantmax" = []) ∧
    (e.cost = none → (TypeEntry.to_xml e).findall "cost" = []) := by
  refine ⟨?_, ?_, ?_, ?_, ?_, ?_, ?_⟩ <;>
    (intro h
     simp [Elem.findall, TypeEntry.to_xml, Elem.children, List.filter_append,
       filter_put_int_ne, filter_flags_ne, filter_category_ne,
       filter_namedChild_map_ne, tag_flagsChild, h, put_int_none,
       not_mem_put_int_tag, not_mem_categoryChildren_tag,
       not_mem_namedChild_map_tag])

/-- Witness for C4: a record with every optional integer absent serializes
with no `nominal` … `cost` child. -/
theorem absent_int_fields_no_child_witness :
    (TypeEntry.to_xml bareEntry).findall "nominal" = [] ∧
    (TypeEntry.to_xml bareEntry).findall "lifetime" = [] ∧
    (TypeEntry.to_xml bareEntry).findall "restock" = [] ∧
    (TypeEntry.to_xml bareEntry).findall "min" = [] ∧
    (TypeEntry.to_xml bareEntry).findall "quantmin" = [] ∧
    (TypeEntry.to_xml bareEntry).findall "quantmax" = [] ∧
    (TypeEntry.to_xml bareEntry).findall "cost" = [] :=
  ⟨(absent_int_fields_no_child bareEntry).1 rfl,
   (absent_int_fields_no_child bareEntry).2.1 rfl,
   (absent_int_fields_no_child bareEntry).2.2.1 rfl,
   (absent_int_fields_no_child bareEntry).2.2.2.1 rfl,
   (absent_int_fields_no_child bareEntry).2.2.2.2.1 rfl,
   (absent_int_fields_no_child bareEntry).2.2.2.2.2.1 rfl,
   (absent_int_fields_no_child bareEntry).2.2.2.2.2.2 rfl⟩

/-! ## C5: the flags child is always emitted with the six fixed attributes -/

/-- **C5** (amended). Unconditionally for every record: serialization emits
a `flags` child carrying exactly the six fixed attribute keys in order, and
each attribute's value is the decimal rendering (`str(int(v))`) of the
stored flag integer. The claim's "each represented as 0 or 1" holds exactly
when every stored flag is 0 or 1 (the editor checkboxes and the defaults
only ever store 0 or 1, but `from_xml` can store any parsed integer, and
`to_xml` writes that integer's decimal text verbatim — see the
counterexample), so that part is the final, conditional conjunct. -/
theorem flags_child_always_emitted (e : TypeEntry) :
    (TypeEntry.to_xml e).find "flags" = some (flagsChild e.flags) ∧
    (flagsChild e.flags).attrs.map Prod.fst
      = ["count_in_cargo", "count_in_hoarder", "count_in_map",
         "count_in_player", "crafted", "deloot"] ∧
    (flagsChild e.flags).attrs.map Prod.snd
      = [pyStr e.flags.count_in_cargo, pyStr e.flags.count_in_hoarder,
         pyStr e.flags.count_in_map, pyStr e.flags.count_in_player,
         pyStr e.flags.crafted, pyStr e.flags.deloot] ∧
    ((∀ v ∈ [e.flags.count_in_cargo, e.flags.count_in_hoarder,
        e.flags.count_in_map, e.flags.count_in_player, e.flags.crafted,
        e.flags.deloot], v = 0 ∨ v = 1) →
      ∀ kv ∈ (flagsChild e.flags).attrs, kv.2 = "0" ∨ kv.2 = "1") := by
  have h01 : ∀ v : Int, v = 0 ∨ v = 1 → pyStr v = "0" ∨ pyStr v = "1" := by
    rintro v (rfl | rfl)
    · left; decide
    · right; decide
  refine ⟨find_to_xml_flags e, rfl, rfl, ?_⟩
  intro h kv hkv
  simp only [flagsChild, Elem.attrs, List.mem_cons, List.not_mem_nil,
    or_false] at hkv
  rcases hkv with rfl | rfl | rfl | rfl | rfl | rfl <;>
    exact h01 _ (h _ (by simp))

/-- Witness for C5 (amended): a record with all flags false still yields the
full `flags` child with the six keys, decimal-rendered values, and (since
its flags are all 0) every attribute "0"/"1". -/
theorem flags_child_always_emitted_witness :
    (TypeEntry.to_xml allZeroEntry).find "flags"
      = some (flagsChild allZeroFlags) ∧
    (flagsChild allZeroFlags).attrs.map Prod.fst
      = ["count_in_cargo", "count_in_hoarder", "count_in_map",
         "count_in_player", "crafted", "deloot"] ∧
    (flagsChild allZeroFlags).attrs.map Prod.snd
      = [pyStr 0, pyStr 0, pyStr 0, pyStr 0, pyStr 0, pyStr 0] ∧
    ∀ kv ∈ (flagsChild allZeroFlags).attrs, kv.2 = "0" ∨ kv.2 = "1" := by
  have h := flags_child_always_emitted allZeroEntry
  exact ⟨h.1, h.2.1, h.2.2.1, h.2.2.2 (by decide)⟩

/-- Counterexample to C5 as stated: a record whose `count_in_cargo` flag
stores the integer 2 (as `from_xml` produces from `count_in_cargo="2"`)
serializes that attribute as "2", which is neither "0" nor "1". -/
theorem flags_child_always_emitted_cex :
    ¬ (∀ kv ∈ ((((TypeEntry.to_xml flagTwoEntry).find "flags").map
        Elem.attrs).getD []), kv.2 = "0" ∨ kv.2 = "1") := by
  decide

/-! ## C10: an empty-string category is normalized to absent by a round trip -/

/-- **C10**: a record whose category is the empty string serializes with no
`category` child at all, and parsing the serialized node therefore yields an
absent (`none`) category. -/
theorem empty_category_normalized (e : TypeEntry) (h : e.category = some "") :
    (TypeEntry.to_xml e).findall "category" = [] ∧
    (TypeEntry.from_xml (TypeEntry.to_xml e)).category = none := by
  have hcc : categoryChildren e.category = [] := by simp [h, categoryChildren]
  constructor
  · simp [Elem.findall, TypeEntry.to_xml, Elem.children, List.filter_append,
      filter_put_int_ne, filter_flags_ne, filter_namedChild_map_ne,
      tag_flagsChild, hcc, not_mem_put_int_tag, not_mem_namedChild_map_tag]
  · show parseCategory (TypeEntry.to_xml e) = none
    rw [parseCategory, find_to_xml_category, hcc]
    rfl

/-- Witness for C10 at a concrete record with `category = some ""`. -/
theorem empty_category_normalized_witness :
    (TypeEntry.to_xml emptyCategoryEntry).findall "category" = [] ∧
    (TypeEntry.from_xml (TypeEntry.to_xml emptyCategoryEntry)).category = none :=
  empty_category_normalized emptyCategoryEntry rfl

/-! ## C8: parse-time field anomalies fall back to absent/default -/

/-- **C8**: `from_xml` is total (it is a plain function in this embedding —
no input raises), and the two fallbacks hold: a missing or unparseable
optional-integer child leaves the field absent, and an unparseable recognized
flags attribute keeps the default flag value. -/
theorem from_xml_field_fallbacks :
    (∀ (el : Elem) (tag : String), el.find tag = none →
      get_int el tag = none) ∧
    (∀ (el : Elem) (tag : String) (t : Elem), el.find tag = some t →
      pyInt (t.text.getD "").data = none → get_int el tag = none) ∧
    (∀ (fe : Elem) (k : String) (d : Int) (v : String), fe.get k = some v →
      pyInt v.data = none → flagVal fe k d = d) := by
  refine ⟨?_, ?_, ?_⟩
  · intro el tag h
    simp [get_int, h]
  · intro el tag t h1 h2
    simp [get_int, h1, h2]
  · intro fe k d v h1 h2
    simp [flagVal, h1, h2]

/-- Witness for C8: a missing `nominal` child, a `nominal` child with text
"abc", and a `crafted="yes"` flags attribute, all falling back. -/
theorem from_xml_field_fallbacks_witness :
    get_int (Elem.mk "type" [] [] none) "nominal" = none ∧
    get_int badIntElem "nominal" = none ∧
    flagVal badFlagsElem "crafted" 0 = 0 :=
  ⟨from_xml_field_fallbacks.1 (Elem.mk "type" [] [] none) "nominal" rfl,
   from_xml_field_fallbacks.2.1 badIntElem "nominal" badIntChild rfl (by decide),
   from_xml_field_fallbacks.2.2 badFlagsElem "crafted" 0 "yes" rfl (by decide)⟩

/-! ## C6: adding a duplicate name is rejected atomically -/

/-- **C6**: with no position selected (the add path), saving an entry whose
name matches an existing record is rejected with the duplicate-name warning
and leaves the collection and category pool exactly as they were (in
particular the length is unchanged). -/
theorem add_duplicate_rejected (entries : List TypeEntry)
    (category_pool : List String) (entry : TypeEntry)
    (h : ∃ e ∈ entries, e.name = entry.name) :
    save_selected_changes entries category_pool none entry
      = { status := .duplicateRejected, entries := entries,
          category_pool := category_pool } := by
  obtain ⟨e0, he0, hname⟩ := h
  have hany : entries.any (fun e => e.name == entry.name) = true := by
    rw [List.any_eq_true]
    exact ⟨e0, he0, by simp [hname]⟩
  simp [save_selected_changes, hany]

/-- Witness for C6 at a concrete collection and a colliding name. -/
theorem add_duplicate_rejected_witness :
    save_selected_changes [sampleEntry] ["weapons"] none dupNameEntry
      = { status := .duplicateRejected, entries := [sampleEntry],
          category_pool := ["weapons"] } :=
  add_duplicate_rejected [sampleEntry] ["weapons"] dupNameEntry (by decide)

/-! ## C2: saving over a selected position (code bug) -/

/-- **C2 is a code bug**: with a position selected and no name collision,
the claim says the record at the selected index is replaced in place. The
code instead executes `self.entries[idx] = entryry` (line 684) where
`entryry` is an undefined name, so Python raises `NameError` before any
mutation: the update path can never store the new record. This theorem
evaluates the model at a failing input: one selected record, a fresh name,
and the outcome is the `NameError` with the collection unchanged (the new
record is at no index at all). -/
theorem save_update_raises_name_error :
    save_selected_changes [sampleEntry] ["weapons"] (some 0) renamedEntry
      = { status := .nameError, entries := [sampleEntry],
          category_pool := ["weapons"] } := by
  decide

/-! ## C9: duplicate inserts a suffixed copy right after the source -/

/-- **C9**: for an in-bounds index, `duplicate_type` grows the collection by
exactly one, places at `idx + 1` a record equal to the source except for the
name (which gains the `_Copy` suffix), and leaves every other record at its
relative position (indices up to `idx` unchanged, indices after shifted by
one). The copy's containers are fresh (`dict(...)`, `list(...)` in the
source), so in the embedding the copy is simply an equal value. -/
theorem duplicate_type_spec (entries : List TypeEntry) (idx : Nat)
    (h : idx < entries.length) :
    (duplicate_type entries idx h).length = entries.length + 1 ∧
    (duplicate_type entries idx h)[idx + 1]?
      = some { entries.get ⟨idx, h⟩ with
               name := (entries.get ⟨idx, h⟩).name ++ "_Copy" } ∧
    (∀ j, j ≤ idx → (duplicate_type entries idx h)[j]? = entries[j]?) ∧
    (∀ j, idx < j → (duplicate_type entries idx h)[j + 1]? = entries[j]?) := by
  have hlen : (entries.take (idx + 1)).length = idx + 1 := by
    rw [List.length_take]
    omega
  refine ⟨?_, ?_, ?_, ?_⟩
  · simp only [duplicate_type, List.length_append, List.length_cons,
      List.length_take, List.length_drop]
    omega
  · simp only [duplicate_type, List.getElem?_append, hlen]
    rw [if_neg (by omega)]
    simp
  · intro j hj
    simp only [duplicate_type, List.getElem?_append, hlen]
    rw [if_pos (by omega), List.getElem?_take, if_pos (by omega)]
  · intro j hj
    simp only [duplicate_type, List.getElem?_append, hlen]
    rw [if_neg (by omega)]
    obtain ⟨k, hk⟩ : ∃ k, j + 1 - (idx + 1) = k + 1 := ⟨j - idx - 1, by omega⟩
    rw [hk, List.getElem?_cons_succ, List.getElem?_drop]
    congr 1
    omega

/-- Witness for C9: duplicating index 0 of a two-record collection. -/
theorem duplicate_type_spec_witness :
    (duplicate_type [sampleEntry, bareEntry] 0 (by decide)).length = 3 ∧
    (duplicate_type [sampleEntry, bareEntry] 0 (by decide))[1]?
      = some { sampleEntry with name := sampleEntry.name ++ "_Copy" } ∧
    (duplicate_type [sampleEntry, bareEntry] 0 (by decide))[0]?
      = some sampleEntry ∧
    (duplicate_type [sampleEntry, bareEntry] 0 (by decide))[2]?
      = some bareEntry := by
  have h := duplicate_type_spec [sampleEntry, bareEntry] 0 (by decide)
  exact ⟨h.1, h.2.1, h.2.2.1 0 (by omega), h.2.2.2 1 (by omega)⟩

/-! ## C7: import rejects a non-`types` root without touching state -/

/-- **C7**: importing a document whose root tag is not `types` fails (the
`ValueError` is raised before any assignment and caught by the handler) and
the prior collection and category pool are left untouched. -/
theorem import_rejects_non_types_root (st : AppState) (root : Elem)
    (h : root.tag ≠ "types") : action_import st root = .failed st := by
  simp [action_import, h]

/-- Witness for C7: an `items`-rooted document against the empty state. -/
theorem import_rejects_non_types_root_witness :
    action_import emptyState itemsDoc = .failed emptyState :=
  import_rejects_non_types_root emptyState itemsDoc (by decide)

/-! ## C3: the category pool after two successive imports -/

/-- Unfolding of a successful import: whole-collection replacement and the
pool rebuilt from the incoming document alone. -/
theorem action_import_ok (s : AppState) (d : Elem) (hd : d.tag = "types") :
    action_import s d
      = .ok { entries := (d.findall "type").map TypeEntry.from_xml,
              category_pool := pySorted ((CATEGORY_PRESETS
                ++ ((d.findall "type").map TypeEntry.from_xml).filterMap
                    entryCategory).dedup) } := by
  simp only [action_import, hd, if_true]

/-- **C3** (amended: `action_import` rebuilds `category_pool` from scratch
on every import — `sorted(set(CATEGORY_PRESETS).union(cats))` over the
incoming document only — so after two successive imports the pool is the
baseline set united with the categories of the *second* document alone,
sorted with no duplicates; the first document's categories are discarded,
contradicting the claimed union over both documents — see the
counterexample). -/
theorem import_twice_category_pool (st : AppState) (doc1 doc2 : Elem)
    (h1 : doc1.tag = "types") (h2 : doc2.tag = "types") :
    (importState (action_import (importState (action_import st doc1))
        doc2)).category_pool
      = pySorted ((CATEGORY_PRESETS
          ++ ((doc2.findall "type").map TypeEntry.from_xml).filterMap
              entryCategory).dedup) ∧
    List.Sorted (fun a b => a ≤ b)
      (importState (action_import (importState (action_import st doc1))
          doc2)).category_pool ∧
    (importState (action_import (importState (action_import st doc1))
        doc2)).category_pool.Nodup ∧
    ∀ x, x ∈ (importState (action_import (importState (action_import st doc1))
        doc2)).category_pool
      ↔ x ∈ CATEGORY_PRESETS
        ∨ x ∈ ((doc2.findall "type").map TypeEntry.from_xml).filterMap
            entryCategory := by
  have hpool : (importState (action_import (importState (action_import st doc1))
      doc2)).category_pool
      = pySorted ((CATEGORY_PRESETS
          ++ ((doc2.findall "type").map TypeEntry.from_xml).filterMap
              entryCategory).dedup) := by
    rw [action_import_ok _ doc2 h2]
    rfl
  refine ⟨hpool, ?_, ?_, ?_⟩
  · rw [hpool]
    exact List.sorted_insertionSort _ _
  · rw [hpool]
    exact (List.perm_insertionSort _ _).nodup_iff.mpr (List.nodup_dedup _)
  · intro x
    rw [hpool, pySorted, List.mem_insertionSort, List.mem_dedup,
      List.mem_append]

/-- Witness for C3 (amended) at two concrete documents with overlapping but
distinct category sets. -/
theorem import_twice_category_pool_witness :
    (importState (action_import (importState (action_import emptyState
        importDocOne)) importDocTwo)).category_pool
      = pySorted ((CATEGORY_PRESETS
          ++ ((importDocTwo.findall "type").map TypeEntry.from_xml).filterMap
              entryCategory).dedup) :=
  (import_twice_category_pool emptyState importDocOne importDocTwo rfl rfl).1

/-- Counterexample to C3 as stated: after importing `importDocOne`
(categories alpha, common) and then `importDocTwo` (categories beta,
common), the pool is not the sorted union over both documents plus the
baseline — "alpha" was discarded by the second import. -/
theorem import_twice_category_pool_cex :
    (importState (action_import (importState (action_import emptyState
        importDocOne)) importDocTwo)).category_pool
      ≠ pySorted ((CATEGORY_PRESETS
          ++ ((importDocOne.findall "type").map TypeEntry.from_xml).filterMap
              entryCategory
          ++ ((importDocTwo.findall "type").map TypeEntry.from_xml).filterMap
              entryCategory).dedup) := by
  have hc1 : ((importDocOne.findall "type").map TypeEntry.from_xml).filterMap
      entryCategory = ["alpha", "common"] := by decide
  have hc2 : ((importDocTwo.findall "type").map TypeEntry.from_xml).filterMap
      entryCategory = ["beta", "common"] := by decide
  have hpool : (importState (action_import (importState (action_import
      emptyState importDocOne)) importDocTwo)).category_pool
      = pySorted ((CATEGORY_PRESETS ++ ["beta", "common"]).dedup) := by
    rw [action_import_ok _ importDocTwo rfl, hc2]
    rfl
  have hmem : ("alpha" : String) ∈ pySorted ((CATEGORY_PRESETS
      ++ ["alpha", "common"] ++ ["beta", "common"]).dedup) := by
    rw [pySorted, List.mem_insertionSort, List.mem_dedup]
    decide
  have hnot : ("alpha" : String) ∉ pySorted ((CATEGORY_PRESETS
      ++ ["beta", "common"]).dedup) := by
    rw [pySorted, List.mem_insertionSort, List.mem_dedup]
    decide
  intro hEq
  rw [hc1, hc2] at hEq
  rw [hpool] at hEq
  exact hnot (by rw [hEq]; exact hmem)
